import Mathlib

/-!
Verification of the riskAI backend risk-assessment core.

Shallow embedding of `src/backend/python/services/risk_assessment.py`
(class `RiskAssessmentService`), of the value-validation and upsert logic in
`src/backend/python/services/feature_service.py` (class `FeatureService`),
and of the divergent score-to-level mapping in
`src/backend/python/services/risk_service.py` (class `RiskService`).

Modelling conventions:
- Python runtime values submitted as feature values, thresholds or
  constraint entries are modelled by the inductive type `Val`
  (`None`, numbers, strings, booleans, lists).  Python `int` and `float`
  are unified as `ℚ`; Python `bool` is kept as a separate constructor
  because `isinstance(x, bool)` distinguishes it, while the numeric view
  `pyNumVal` maps `True`/`False` to `1`/`0` exactly as Python's
  bool-as-int coercion does for `==`, `<`, `>`.
- A Python expression that can raise `TypeError` (ordering of
  incomparable values, membership test in a non-container) is modelled
  in `Option`; `Option.none` is "raises".
- Database state is explicit: a list of records; SQLAlchemy queries
  become list filters, `order_by(... .desc())` becomes an insertion sort.
-/

/-- A Python runtime value as it can appear in a feature-value mapping,
a threshold, or a JSON constraints column. -/
inductive Val where
  | none
  | num (q : ℚ)
  | str (s : String)
  | bool (b : Bool)
  | list (l : List Val)

/-- The numeric view Python uses for arithmetic comparisons:
ints/floats are numbers, and `bool` is a subtype of `int`
(`True == 1`, `False == 0`); everything else is not numeric. -/
def pyNumVal : Val → Option ℚ
  | .num q => some q
  | .bool b => some (if b then 1 else 0)
  | _ => Option.none

mutual

/-- Python `==` (never raises): numeric cross-type equality via
`pyNumVal`, otherwise structural comparison; values of unrelated
non-numeric types compare unequal. -/
def pyEqB (a b : Val) : Bool :=
  match pyNumVal a, pyNumVal b with
  | some x, some y => decide (x = y)
  | _, _ =>
    match a, b with
    | .str s, .str t => s == t
    | .none, .none => true
    | .list xs, .list ys => pyEqListB xs ys
    | _, _ => false

/-- Elementwise Python `==` on lists. -/
def pyEqListB (xs ys : List Val) : Bool :=
  match xs, ys with
  | [], [] => true
  | x :: xs, y :: ys => pyEqB x y && pyEqListB xs ys
  | _, _ => false

end

/-- Python `<` : defined on number pairs (bools included) and on string
pairs; anything else raises `TypeError` (modelled as `none`). -/
def pyLtB (a b : Val) : Option Bool :=
  match pyNumVal a, pyNumVal b with
  | some x, some y => some (decide (x < y))
  | _, _ =>
    match a, b with
    | .str s, .str t => some (decide (s < t))
    | _, _ => Option.none

/-- Python `>` : mirror image of `<`. -/
def pyGtB (a b : Val) : Option Bool :=
  pyLtB b a

/-- Decidable check that one list is a contiguous infix of another,
used for Python substring membership. -/
def listIsInfixB (needle hay : List Char) : Bool :=
  (List.range (hay.length + 1)).any fun i => needle.isPrefixOf (hay.drop i)

/-- Python `in`: membership in a list uses `==` elementwise; `in` on a
string is substring search and requires the left operand to be a string;
any other right operand raises `TypeError`. -/
def pyInB (v thr : Val) : Option Bool :=
  match thr with
  | .list l => some (l.any fun x => pyEqB v x)
  | .str s =>
    match v with
    | .str t => some (listIsInfixB t.data s.data)
    | _ => Option.none
  | _ => Option.none

/-- A risk factor row (`models.py`, class `RiskFactor`).  The column
`threshold` is declared `Float` in `models.py`, but the scoring code in
`risk_assessment.py` reads it generically (it is compared with `>`,
`<`, `==`, `in`), so it is modelled as `Val`; `Val.num` covers the
declared column type.  Timestamp columns are irrelevant to scoring and
omitted. -/
structure RiskFactor where
  id : Int
  feature_id : Int
  weight : ℚ
  threshold : Val
  operator : String
  risk_level : String
  description : String
  is_active : Bool

/-- `RiskAssessmentService._calculate_factor_score`
(`risk_assessment.py` lines 175-186): four operator branches, each
returning the weight when the comparison holds and `0` otherwise; any
other operator falls through to `return 0`.  The result is `none` when
the underlying Python comparison would raise. -/
def calculateFactorScore (factor : RiskFactor) (feature_value : Val) : Option ℚ :=
  if factor.operator = "gt" then
    (pyGtB feature_value factor.threshold).map fun b => if b then factor.weight else 0
  else if factor.operator = "lt" then
    (pyLtB feature_value factor.threshold).map fun b => if b then factor.weight else 0
  else if factor.operator = "eq" then
    some (if pyEqB feature_value factor.threshold then factor.weight else 0)
  else if factor.operator = "in" then
    (pyInB feature_value factor.threshold).map fun b => if b then factor.weight else 0
  else
    some 0

/-- Python's `feature_value is not None` test. -/
def Val.isNotNone : Val → Bool
  | .none => false
  | _ => true

example : calculateFactorScore
    ⟨1, 1, 1/2, Val.num 20000, "lt", "high", "", true⟩ (Val.num 15000) = some (1/2) := rfl

example : calculateFactorScore
    ⟨2, 1, 1/2, Val.num 20000, "gte", "low", "", true⟩ (Val.num 15000) = some 0 := rfl

/-- A Python dict key in the request's `features` mapping.  The schema
(`schemas.py`, `RiskAssessmentRequest`) declares `features: Dict[str, Any]`,
but the scoring loop looks values up with the integer
`factor.feature_id`, so keys of both kinds are representable. -/
inductive PyKey where
  | s (v : String)
  | i (v : Int)
  deriving DecidableEq

/-- A Python dict, as an association list with the first binding of a
key authoritative (a real dict has each key at most once). -/
abbrev FeaturesMap := List (PyKey × Val)

/-- Python `d.get(k)` without a default: `some v` when the key is
present (the bound value may itself be `Val.none`), `none` when
absent. -/
def dictGet (m : FeaturesMap) (k : PyKey) : Option Val :=
  match m with
  | [] => Option.none
  | (k₁, v) :: rest => if k₁ = k then some v else dictGet rest k

/-- `assessment.features.get(factor.feature_id)` as the loop consumes
it: an absent key and a key bound to `None` both read back as Python
`None`. -/
def featuresGet (features : FeaturesMap) (feature_id : Int) : Val :=
  (dictGet features (PyKey.i feature_id)).getD Val.none

/-- One entry of `risk_details` (`risk_assessment.py` lines 87-91). -/
structure FactorDetail where
  factor_id : Int
  score : ℚ
  max_score : ℚ
  deriving DecidableEq

/-- The three accumulators of the scoring loop
(`risk_assessment.py` lines 77-79). -/
structure AssessAcc where
  total_score : ℚ
  max_possible_score : ℚ
  risk_details : List FactorDetail

/-- The `for factor in risk_factors` loop of `assess_risk`
(`risk_assessment.py` lines 81-91): factors whose feature value reads
back as `None` are skipped entirely; for the others the factor score is
added to `total_score`, the weight to `max_possible_score`, and a
detail entry is appended.  `none` propagates a `TypeError` raised by a
comparison inside `_calculate_factor_score`. -/
def assessLoop (factors : List RiskFactor) (features : FeaturesMap)
    (acc : AssessAcc) : Option AssessAcc :=
  match factors with
  | [] => some acc
  | factor :: rest =>
    let feature_value := featuresGet features factor.feature_id
    if feature_value.isNotNone then
      match calculateFactorScore factor feature_value with
      | some factor_score =>
        assessLoop rest features
          { total_score := acc.total_score + factor_score
            max_possible_score := acc.max_possible_score + factor.weight
            risk_details := acc.risk_details ++
              [{ factor_id := factor.id, score := factor_score, max_score := factor.weight }] }
      | Option.none => Option.none
    else
      assessLoop rest features acc

/-- The query `RiskFactor.is_active == True` of
`risk_assessment.py` lines 72-74. -/
def activeFactors (all_factors : List RiskFactor) : List RiskFactor :=
  all_factors.filter fun f => f.is_active

/-- Normalization step (`risk_assessment.py` line 94). -/
def normalizeScore (acc : AssessAcc) : ℚ :=
  if acc.max_possible_score > 0 then acc.total_score / acc.max_possible_score * 100 else 0

/-- The pure computation of `assess_risk` up to persistence: the
normalized score and the contribution details, or `none` when a factor
evaluation raises. -/
def assessRiskCore (all_factors : List RiskFactor) (features : FeaturesMap) :
    Option (ℚ × List FactorDetail) :=
  match assessLoop (activeFactors all_factors) features ⟨0, 0, []⟩ with
  | some acc => some (normalizeScore acc, acc.risk_details)
  | Option.none => Option.none

/-- `RiskAssessmentService._determine_risk_level`
(`risk_assessment.py` lines 188-195). -/
def determineRiskLevel (risk_score : ℚ) : String :=
  if risk_score ≥ 80 then "HIGH"
  else if risk_score ≥ 50 then "MEDIUM"
  else "LOW"

/-- `RiskService._determine_risk_level` (`risk_service.py` lines
227-234): a second score-to-level mapping living in the same code base,
with breakpoint 60 instead of 50 and inverted label polarity. -/
def riskServiceDetermineRiskLevel (risk_score : ℚ) : String :=
  if risk_score ≥ 80 then "low"
  else if risk_score ≥ 60 then "medium"
  else "high"

/-- A stored `risk_assessments` row as `assess_risk` writes it and
`get_customer_assessments` reads it back (`risk_assessment.py` lines
97-102 and 133-143): id, customer id, score, date, contribution
details.  Timestamps are modelled as integers. -/
structure RiskAssessmentRec where
  id : Int
  customer_id : String
  risk_score : ℚ
  assessment_date : Int
  details : List FactorDetail
  deriving DecidableEq

/-- The `RiskAssessmentResponse` fields `assess_risk` and
`get_customer_assessments` populate. -/
structure AssessmentResponse where
  id : Int
  customer_id : String
  risk_score : ℚ
  risk_level : String
  assessment_date : Int
  details : List FactorDetail
  deriving DecidableEq

/-- `assess_risk` end to end (`risk_assessment.py` lines 69-114):
fetch active factors, run the scoring loop, normalize, append one
assessment row to the store, and return the response carrying the
normalized score, the level derived by `_determine_risk_level`, and the
details.  `next_id` stands for the id the store assigns, `now` for
`datetime.utcnow()`. -/
def assessRisk (db : List RiskAssessmentRec) (next_id now : Int)
    (customer_id : String) (all_factors : List RiskFactor) (features : FeaturesMap) :
    Option (List RiskAssessmentRec × AssessmentResponse) :=
  match assessRiskCore all_factors features with
  | some (normalized_score, risk_details) =>
    some (db ++ [{ id := next_id, customer_id := customer_id,
                   risk_score := normalized_score, assessment_date := now,
                   details := risk_details }],
          { id := next_id, customer_id := customer_id,
            risk_score := normalized_score,
            risk_level := determineRiskLevel normalized_score,
            assessment_date := now, details := risk_details })
  | Option.none => Option.none

/-- Insert a record into a list that is sorted by descending
`assessment_date`, keeping it sorted. -/
def insertByDateDesc (a : RiskAssessmentRec) : List RiskAssessmentRec → List RiskAssessmentRec
  | [] => [a]
  | b :: rest =>
    if b.assessment_date ≥ a.assessment_date then b :: insertByDateDesc a rest
    else a :: b :: rest

/-- `order_by(RiskAssessment.assessment_date.desc())` as an insertion
sort. -/
def sortByDateDesc (rows : List RiskAssessmentRec) : List RiskAssessmentRec :=
  rows.foldr insertByDateDesc []

/-- The optional date-range filters of `get_customer_assessments`
(`risk_assessment.py` lines 127-130); `Option.none` means the argument
was not supplied, so the filter is skipped. -/
def dateInRange (start_date end_date : Option Int) (d : Int) : Bool :=
  (match start_date with | some s => decide (d ≥ s) | Option.none => true) &&
  (match end_date with | some e => decide (d ≤ e) | Option.none => true)

/-- `get_customer_assessments` (`risk_assessment.py` lines 116-143):
filter the store by customer id and the optional date range, order
newest first, and rebuild a response per row, re-deriving the risk
level from the stored score with `_determine_risk_level`. -/
def getCustomerAssessments (db : List RiskAssessmentRec) (customer_id : String)
    (start_date end_date : Option Int) : List AssessmentResponse :=
  let rows := db.filter fun a =>
    a.customer_id = customer_id && dateInRange start_date end_date a.assessment_date
  (sortByDateDesc rows).map fun assessment =>
    { id := assessment.id, customer_id := assessment.customer_id,
      risk_score := assessment.risk_score,
      risk_level := determineRiskLevel assessment.risk_score,
      assessment_date := assessment.assessment_date,
      details := assessment.details }

/-- The `distribution` dict of `_get_risk_level_distribution`
(`risk_assessment.py` lines 199-203). -/
structure LevelDistribution where
  countHIGH : Nat
  countMEDIUM : Nat
  countLOW : Nat
  deriving DecidableEq

/-- `distribution[risk_level] += 1` for the three keys the dict holds. -/
def distIncr (d : LevelDistribution) (risk_level : String) : LevelDistribution :=
  if risk_level = "HIGH" then { d with countHIGH := d.countHIGH + 1 }
  else if risk_level = "MEDIUM" then { d with countMEDIUM := d.countMEDIUM + 1 }
  else if risk_level = "LOW" then { d with countLOW := d.countLOW + 1 }
  else d

/-- `_get_risk_level_distribution` (`risk_assessment.py` lines
197-210): every fetched assessment is counted under the level
`_determine_risk_level` re-derives from its stored score. -/
def getRiskLevelDistribution (assessments : List RiskAssessmentRec) : LevelDistribution :=
  assessments.foldl (fun d a => distIncr d (determineRiskLevel a.risk_score)) ⟨0, 0, 0⟩

/-- The JSON `constraints` dict as `validate_feature_value` reads it:
`.get("min")`, `.get("max")`, `.get("categories", [])`,
`.get("max_length")`.  Bounds are numeric per the structural validator
in `schemas.py` (`validate_constraints`); a missing key is `none`. -/
structure Constraints where
  min : Option ℚ
  max : Option ℚ
  categories : Option (List Val)
  max_length : Option Nat

/-- A `features` row as the validator consumes it
(`models.py`, class `Feature`; columns irrelevant to value validation
omitted). -/
structure Feature where
  id : Int
  name : String
  data_type : String
  constraints : Constraints
  is_active : Bool

/-- The `FeatureValidation` response schema (`schemas.py`):
`is_valid` is `len(errors) == 0`. -/
structure FeatureValidation where
  is_valid : Bool
  errors : List String
  deriving DecidableEq

/-- Render a rational for an error message f-string.  Python formats the
bound with `repr`; the exact text differs but the message structure is
kept. -/
def ratMsg (q : ℚ) : String :=
  if q.den = 1 then toString q.num else toString q.num ++ "/" ++ toString q.den

/-- Render one category for the `', '.join(categories)` message.
Python's `join` accepts only strings and raises `TypeError` otherwise;
structurally valid categorical constraints hold strings, for which this
matches. -/
def categoryMsg : Val → String
  | .str s => s
  | _ => "?"

/-- Simplified model of `datetime.fromisoformat` succeeding: the string
has a `YYYY-MM-DD` prefix.  No claim depends on the date branch. -/
def isoParseOk (s : String) : Bool :=
  let cs := s.data
  cs.length ≥ 10 &&
  (List.range 10).all fun i =>
    if i = 4 ∨ i = 7 then cs.getD i ' ' = '-' else (cs.getD i ' ').isDigit

/-- The per-data-type error accumulation of
`FeatureService.validate_feature_value` (`feature_service.py` lines
516-550).  Notes kept from the source: in the numeric branch
`isinstance(value, (int, float))` also accepts Python booleans (a
`bool` is an `int`); in the boolean branch `isinstance(value, bool)`
accepts nothing but actual booleans; the text-length guard is
`if max_length and ...`, so a `max_length` of `0` is falsy and skipped;
the numeric bound guards are `is not None`, so a bound of `0` is
checked. -/
def valueErrors (feature : Feature) (value : Val) : List String :=
  if feature.data_type = "numeric" then
    match pyNumVal value with
    | Option.none => ["Value must be numeric"]
    | some x =>
      (match feature.constraints.min with
       | some min_val =>
         if x < min_val then ["Value must be greater than or equal to " ++ ratMsg min_val] else []
       | Option.none => []) ++
      (match feature.constraints.max with
       | some max_val =>
         if x > max_val then ["Value must be less than or equal to " ++ ratMsg max_val] else []
       | Option.none => [])
  else if feature.data_type = "categorical" then
    let categories := feature.constraints.categories.getD []
    if categories.any (fun c => pyEqB value c) then []
    else ["Value must be one of: " ++ String.intercalate ", " (categories.map categoryMsg)]
  else if feature.data_type = "boolean" then
    match value with
    | .bool _ => []
    | _ => ["Value must be a boolean"]
  else if feature.data_type = "text" then
    match value with
    | .str s =>
      (match feature.constraints.max_length with
       | some max_length =>
         if max_length ≠ 0 ∧ s.length > max_length then
           ["Text length must be less than or equal to " ++ toString max_length]
         else []
       | Option.none => [])
    | _ => ["Value must be a string"]
  else if feature.data_type = "date" then
    match value with
    | .str s => if isoParseOk s then [] else ["Value must be a valid ISO format date string"]
    | _ => ["Value must be a valid ISO format date string"]
  else
    []

/-- `FeatureService.validate_feature_value` (`feature_service.py` lines
495-552): an unknown feature is invalid with a single error, otherwise
the errors accumulate per data type and `is_valid` is emptiness of the
list.  The argument stands for the result of the `get_feature` fetch. -/
def validateFeatureValue (feature? : Option Feature) (value : Val) : FeatureValidation :=
  match feature? with
  | Option.none => { is_valid := false, errors := ["Feature not found"] }
  | some feature =>
    let errors := valueErrors feature value
    { is_valid := errors.length = 0, errors := errors }

/-- A `feature_values` row (`models.py`, class `FeatureValue`;
timestamps and surrogate id omitted). -/
structure FeatureValueRec where
  feature_id : Int
  entity_id : Int
  value : Val

/-- The upsert of `set_feature_value`: the first row matching
`(feature_id, entity_id)` (the `.first()` of the filtered query) gets
its `value` replaced; with no match a new row is appended. -/
def upsertRows (rows : List FeatureValueRec) (feature_id entity_id : Int) (value : Val) :
    List FeatureValueRec :=
  match rows with
  | [] => [{ feature_id := feature_id, entity_id := entity_id, value := value }]
  | r :: rest =>
    if r.feature_id = feature_id ∧ r.entity_id = entity_id then
      { r with value := value } :: rest
    else
      r :: upsertRows rest feature_id entity_id value

/-- `FeatureService.set_feature_value` (`feature_service.py` lines
554-598): validate first and fail with the accumulated error list,
writing nothing; otherwise update the existing `(feature_id,
entity_id)` row or insert a new one.  `feature?` stands for the
`get_feature` fetch done inside validation. -/
def setFeatureValue (rows : List FeatureValueRec) (feature? : Option Feature)
    (feature_id entity_id : Int) (value : Val) :
    Except (List String) (List FeatureValueRec) :=
  let validation := validateFeatureValue feature? value
  if validation.is_valid then
    Except.ok (upsertRows rows feature_id entity_id value)
  else
    Except.error validation.errors

/-- The rows stored for one `(feature_id, entity_id)` pair. -/
def rowsFor (rows : List FeatureValueRec) (feature_id entity_id : Int) :
    List FeatureValueRec :=
  rows.filter fun r => r.feature_id = feature_id ∧ r.entity_id = entity_id

/-- Whether an active factor's referenced feature has a submitted
value: the gate `if feature_value is not None` of the scoring loop. -/
def hasSubmittedValue (features : FeaturesMap) (f : RiskFactor) : Bool :=
  (featuresGet features f.feature_id).isNotNone

/-- The factor score the loop adds for a contributing factor (`0` is
never the fallback when the loop succeeds, since success means the
evaluation returned a value). -/
def factorScoreOrZero (features : FeaturesMap) (f : RiskFactor) : ℚ :=
  (calculateFactorScore f (featuresGet features f.feature_id)).getD 0

/-- The detail entry the loop appends for a contributing factor. -/
def detailOf (features : FeaturesMap) (f : RiskFactor) : FactorDetail :=
  { factor_id := f.id, score := factorScoreOrZero features f, max_score := f.weight }

section HelperLemmas

/-- Every branch of `_calculate_factor_score` awards either `0` or the
factor's weight. -/
theorem calculateFactorScore_eq_zero_or_weight {factor : RiskFactor} {v : Val} {s : ℚ}
    (h : calculateFactorScore factor v = some s) : s = 0 ∨ s = factor.weight := by
  unfold calculateFactorScore at h
  repeat' split at h
  all_goals
    first
    | (simp only [Option.map_eq_some'] at h
       obtain ⟨b, -, hb⟩ := h
       cases b <;> simp_all)
    | simp_all

/-- Unfolding lemma for the scoring loop, tying `assessLoop` to a
filter-and-map description of the contributing factors. -/
theorem assessLoop_spec (factors : List RiskFactor) (features : FeaturesMap)
    (acc acc' : AssessAcc) (h : assessLoop factors features acc = some acc') :
    acc'.total_score =
      acc.total_score + ((factors.filter (hasSubmittedValue features)).map
        (factorScoreOrZero features)).sum ∧
    acc'.max_possible_score =
      acc.max_possible_score + ((factors.filter (hasSubmittedValue features)).map
        (fun f => f.weight)).sum ∧
    acc'.risk_details =
      acc.risk_details ++ (factors.filter (hasSubmittedValue features)).map
        (detailOf features) := by
  induction factors generalizing acc with
  | nil =>
    simp only [assessLoop, Option.some.injEq] at h
    simp [← h]
  | cons factor rest ih =>
    rw [assessLoop] at h
    by_cases hs : (featuresGet features factor.feature_id).isNotNone
    · simp only [hs, if_true] at h
      cases hcalc : calculateFactorScore factor (featuresGet features factor.feature_id) with
      | none => rw [hcalc] at h; exact absurd h (by simp)
      | some factor_score =>
        rw [hcalc] at h
        have := ih _ h
        have hfz : factorScoreOrZero features factor = factor_score := by
          simp [factorScoreOrZero, hcalc]
        simp only [List.filter_cons, hasSubmittedValue, hs, if_true, List.map_cons,
          List.sum_cons, detailOf, hfz] at this ⊢
        obtain ⟨h1, h2, h3⟩ := this
        refine ⟨by rw [h1]; ring, by rw [h2]; ring, by rw [h3]; simp⟩
    · simp only [hs, if_false] at h
      have := ih _ h
      simpa [List.filter_cons, hasSubmittedValue, hs] using this

/-- When every factor's weight is positive, the loop keeps
`0 ≤ total_score ≤ max_possible_score`. -/
theorem assessLoop_bounds (factors : List RiskFactor) (features : FeaturesMap)
    (acc acc' : AssessAcc) (hw : ∀ f ∈ factors, 0 < f.weight)
    (h : assessLoop factors features acc = some acc')
    (h0 : 0 ≤ acc.total_score) (h1 : acc.total_score ≤ acc.max_possible_score) :
    0 ≤ acc'.total_score ∧ acc'.total_score ≤ acc'.max_possible_score := by
  induction factors generalizing acc with
  | nil =>
    simp only [assessLoop, Option.some.injEq] at h
    exact ⟨h ▸ h0, h ▸ h1⟩
  | cons factor rest ih =>
    rw [assessLoop] at h
    by_cases hs : (featuresGet features factor.feature_id).isNotNone
    · simp only [hs, if_true] at h
      cases hcalc : calculateFactorScore factor (featuresGet features factor.feature_id) with
      | none => rw [hcalc] at h; exact absurd h (by simp)
      | some factor_score =>
        rw [hcalc] at h
        have hwf : 0 < factor.weight := hw factor (List.mem_cons_self _ _)
        have hsc := calculateFactorScore_eq_zero_or_weight hcalc
        refine ih _ (fun f hf => hw f (List.mem_cons_of_mem _ hf)) h ?_ ?_
        · show 0 ≤ acc.total_score + factor_score
          rcases hsc with h' | h' <;> subst h' <;> linarith
        · show acc.total_score + factor_score ≤ acc.max_possible_score + factor.weight
          rcases hsc with h' | h' <;> subst h' <;> linarith
    · simp only [hs, if_false] at h
      exact ih _ (fun f hf => hw f (List.mem_cons_of_mem _ hf)) h h0 h1

/-- The normalized score is within `[0, 100]` whenever
`0 ≤ total_score ≤ max_possible_score`. -/
theorem normalizeScore_range (acc : AssessAcc)
    (h0 : 0 ≤ acc.total_score) (h1 : acc.total_score ≤ acc.max_possible_score) :
    0 ≤ normalizeScore acc ∧ normalizeScore acc ≤ 100 := by
  unfold normalizeScore
  split
  · rename_i hpos
    constructor
    · positivity
    · have : acc.total_score / acc.max_possible_score ≤ 1 := by
        rw [div_le_one hpos]; exact h1
      nlinarith
  · norm_num

end HelperLemmas

/-- Scenario A, first factor: `{operator: lt, threshold: 20000,
weight: 0.5, risk_level: high}` on the `income` feature. -/
def scenarioALt : RiskFactor :=
  ⟨1, 1, 1/2, Val.num 20000, "lt", "high", "", true⟩

/-- Scenario A, second factor: `{operator: gte, threshold: 20000,
weight: 0.5, risk_level: low}` on the `income` feature. -/
def scenarioAGte : RiskFactor :=
  ⟨2, 1, 1/2, Val.num 20000, "gte", "low", "", true⟩

/-- Scenario A input: `income = 15000`. -/
def scenarioAFeatures : FeaturesMap :=
  [(PyKey.i 1, Val.num 15000)]

/-- C1: with all active weights in `(0, 1]`, whenever the scoring loop
completes, `assess_risk` produces exactly
`(total_score / max_possible_score) * 100` when `max_possible_score >
0` and `0` otherwise, and that normalized score lies in `[0, 100]`. -/
theorem assess_risk_normalized_score_range
    (all_factors : List RiskFactor) (features : FeaturesMap)
    (hw : ∀ f ∈ all_factors, 0 < f.weight ∧ f.weight ≤ 1)
    (acc : AssessAcc)
    (h : assessLoop (activeFactors all_factors) features ⟨0, 0, []⟩ = some acc) :
    assessRiskCore all_factors features =
      some ((if acc.max_possible_score > 0
             then acc.total_score / acc.max_possible_score * 100 else 0),
            acc.risk_details) ∧
    0 ≤ normalizeScore acc ∧ normalizeScore acc ≤ 100 := by
  have hw' : ∀ f ∈ activeFactors all_factors, 0 < f.weight := by
    intro f hf
    exact (hw f (List.mem_of_mem_filter hf)).1
  have hb := assessLoop_bounds _ _ _ _ hw' h (le_refl 0) (le_refl 0)
  exact ⟨by simp [assessRiskCore, h, normalizeScore],
         normalizeScore_range acc hb.1 hb.2⟩

/-- Witness for C1 at Scenario A's first factor alone. -/
theorem assess_risk_normalized_score_range_witness :
    (∀ f ∈ [scenarioALt], 0 < f.weight ∧ f.weight ≤ 1) ∧
    assessLoop (activeFactors [scenarioALt]) scenarioAFeatures ⟨0, 0, []⟩ =
      some ⟨1/2, 1/2, [⟨1, 1/2, 1/2⟩]⟩ ∧
    (assessRiskCore [scenarioALt] scenarioAFeatures =
      some ((if (⟨1/2, 1/2, [⟨1, 1/2, 1/2⟩]⟩ : AssessAcc).max_possible_score > 0
             then (⟨1/2, 1/2, [⟨1, 1/2, 1/2⟩]⟩ : AssessAcc).total_score /
               (⟨1/2, 1/2, [⟨1, 1/2, 1/2⟩]⟩ : AssessAcc).max_possible_score * 100 else 0),
            (⟨1/2, 1/2, [⟨1, 1/2, 1/2⟩]⟩ : AssessAcc).risk_details) ∧
     0 ≤ normalizeScore ⟨1/2, 1/2, [⟨1, 1/2, 1/2⟩]⟩ ∧
     normalizeScore ⟨1/2, 1/2, [⟨1, 1/2, 1/2⟩]⟩ ≤ 100) := by
  have hw : ∀ f ∈ [scenarioALt], 0 < f.weight ∧ f.weight ≤ 1 := by
    intro f hf
    simp only [List.mem_singleton] at hf
    subst hf
    norm_num [scenarioALt]
  have h : assessLoop (activeFactors [scenarioALt]) scenarioAFeatures ⟨0, 0, []⟩ =
      some ⟨1/2, 1/2, [⟨1, 1/2, 1/2⟩]⟩ := by
    simp [assessLoop, activeFactors, scenarioALt, scenarioAFeatures, featuresGet,
      dictGet, Val.isNotNone, calculateFactorScore, pyLtB, pyNumVal] <;> norm_num
  exact ⟨hw, h, assess_risk_normalized_score_range [scenarioALt] scenarioAFeatures hw _ h⟩

/-- C3: a factor whose referenced feature has no submitted value is
excluded from `total_score`, `max_possible_score` and the contribution
details; the three accumulators are exactly the filter-and-map over the
active factors that do have a submitted value. -/
theorem assess_risk_skips_unsubmitted_factors
    (all_factors : List RiskFactor) (features : FeaturesMap) (acc : AssessAcc)
    (h : assessLoop (activeFactors all_factors) features ⟨0, 0, []⟩ = some acc) :
    acc.total_score =
      (((activeFactors all_factors).filter (hasSubmittedValue features)).map
        (factorScoreOrZero features)).sum ∧
    acc.max_possible_score =
      (((activeFactors all_factors).filter (hasSubmittedValue features)).map
        (fun f => f.weight)).sum ∧
    acc.risk_details =
      ((activeFactors all_factors).filter (hasSubmittedValue features)).map
        (detailOf features) := by
  have := assessLoop_spec _ _ _ _ h
  simpa using this

/-- Witness for C3: one active factor with a submitted value, one
active factor without. -/
theorem assess_risk_skips_unsubmitted_factors_witness :
    assessLoop (activeFactors [scenarioALt, ⟨3, 7, 1/2, Val.num 1, "gt", "high", "", true⟩])
      scenarioAFeatures ⟨0, 0, []⟩ = some ⟨1/2, 1/2, [⟨1, 1/2, 1/2⟩]⟩ ∧
    ((⟨1/2, 1/2, [⟨1, 1/2, 1/2⟩]⟩ : AssessAcc).total_score =
      (((activeFactors [scenarioALt, ⟨3, 7, 1/2, Val.num 1, "gt", "high", "", true⟩]).filter
        (hasSubmittedValue scenarioAFeatures)).map
        (factorScoreOrZero scenarioAFeatures)).sum ∧
     (⟨1/2, 1/2, [⟨1, 1/2, 1/2⟩]⟩ : AssessAcc).max_possible_score =
      (((activeFactors [scenarioALt, ⟨3, 7, 1/2, Val.num 1, "gt", "high", "", true⟩]).filter
        (hasSubmittedValue scenarioAFeatures)).map (fun f => f.weight)).sum ∧
     (⟨1/2, 1/2, [⟨1, 1/2, 1/2⟩]⟩ : AssessAcc).risk_details =
      ((activeFactors [scenarioALt, ⟨3, 7, 1/2, Val.num 1, "gt", "high", "", true⟩]).filter
        (hasSubmittedValue scenarioAFeatures)).map (detailOf scenarioAFeatures)) := by
  have h : assessLoop
      (activeFactors [scenarioALt, ⟨3, 7, 1/2, Val.num 1, "gt", "high", "", true⟩])
      scenarioAFeatures ⟨0, 0, []⟩ = some ⟨1/2, 1/2, [⟨1, 1/2, 1/2⟩]⟩ := by
    simp [assessLoop, activeFactors, scenarioALt, scenarioAFeatures, featuresGet,
      dictGet, Val.isNotNone, calculateFactorScore, pyLtB, pyNumVal] <;> norm_num
  exact ⟨h, assess_risk_skips_unsubmitted_factors _ _ _ h⟩

/-- C4: Scenario A — `income = 15000` against the `lt 20000` and
`gte 20000` factors of weight `0.5` each gives `total_score = 0.5`,
`max_possible_score = 1.0` and a normalized score of `50`. -/
theorem assess_risk_scenario_a :
    assessLoop (activeFactors [scenarioALt, scenarioAGte]) scenarioAFeatures ⟨0, 0, []⟩ =
      some ⟨1/2, 1, [⟨1, 1/2, 1/2⟩, ⟨2, 0, 1/2⟩]⟩ ∧
    assessRiskCore [scenarioALt, scenarioAGte] scenarioAFeatures =
      some (50, [⟨1, 1/2, 1/2⟩, ⟨2, 0, 1/2⟩]) := by
  constructor
  · simp [assessLoop, activeFactors, scenarioALt, scenarioAGte, scenarioAFeatures,
      featuresGet, dictGet, Val.isNotNone, calculateFactorScore, pyLtB, pyGtB,
      pyNumVal] <;> norm_num
  · simp [assessRiskCore, assessLoop, activeFactors, scenarioALt, scenarioAGte,
      scenarioAFeatures, featuresGet, dictGet, Val.isNotNone, calculateFactorScore,
      pyLtB, pyGtB, pyNumVal, normalizeScore] <;> norm_num

/-- C5: with no active risk factors, `assess_risk` stores and returns a
normalized score of `0`, an empty contribution list, and the
lowest-risk label `"LOW"`. -/
theorem assess_risk_no_active_factors
    (db : List RiskAssessmentRec) (next_id now : Int) (customer_id : String)
    (all_factors : List RiskFactor) (features : FeaturesMap)
    (h : activeFactors all_factors = []) :
    assessRisk db next_id now customer_id all_factors features =
      some (db ++ [{ id := next_id, customer_id := customer_id, risk_score := 0,
                     assessment_date := now, details := [] }],
            { id := next_id, customer_id := customer_id, risk_score := 0,
              risk_level := "LOW", assessment_date := now, details := [] }) := by
  have hcore : assessRiskCore all_factors features = some (0, []) := by
    simp [assessRiskCore, h, assessLoop, normalizeScore]
  have hlevel : determineRiskLevel 0 = "LOW" := by
    norm_num [determineRiskLevel]
  simp [assessRisk, hcore, hlevel]

/-- Witness for C5: an inactive factor and an empty store. -/
theorem assess_risk_no_active_factors_witness :
    activeFactors [⟨9, 1, 1/2, Val.num 1, "gt", "high", "", false⟩] = [] ∧
    assessRisk [] 1 0 "cust-1" [⟨9, 1, 1/2, Val.num 1, "gt", "high", "", false⟩]
      scenarioAFeatures =
      some ([{ id := 1, customer_id := "cust-1", risk_score := 0,
               assessment_date := 0, details := [] }],
            { id := 1, customer_id := "cust-1", risk_score := 0,
              risk_level := "LOW", assessment_date := 0, details := [] }) := by
  have h : activeFactors [⟨9, 1, 1/2, Val.num 1, "gt", "high", "", false⟩] = [] := by
    simp [activeFactors]
  refine ⟨h, ?_⟩
  have := assess_risk_no_active_factors [] 1 0 "cust-1"
    [⟨9, 1, 1/2, Val.num 1, "gt", "high", "", false⟩] scenarioAFeatures h
  simpa using this

/-- C2: `_calculate_factor_score` awards `0` for the operators `gte`,
`lte`, `ne` and `between` even when the claimed comparison holds, since
only `gt`, `lt`, `eq` and `in` have branches; the `Operator` enum in
`schemas.py` nevertheless declares `gte`, `lte`, `ne` and `between`
creatable.  Each listed input satisfies the operator's comparison, so
the claimed score is the weight `1/2`, yet the code returns `0`. -/
theorem calculate_factor_score_zeroes_declared_operators :
    calculateFactorScore ⟨3, 1, 1/2, Val.num 3, "gte", "high", "", true⟩ (Val.num 5) =
      some 0 ∧
    calculateFactorScore ⟨4, 1, 1/2, Val.num 3, "lte", "high", "", true⟩ (Val.num 2) =
      some 0 ∧
    calculateFactorScore ⟨5, 1, 1/2, Val.num 3, "ne", "high", "", true⟩ (Val.num 5) =
      some 0 ∧
    calculateFactorScore
      ⟨6, 1, 1/2, Val.list [Val.num 1, Val.num 9], "between", "high", "", true⟩
      (Val.num 5) = some 0 ∧
    ((5 : ℚ) ≥ 3 ∧ (2 : ℚ) ≤ 3 ∧ (5 : ℚ) ≠ 3 ∧ ((1 : ℚ) ≤ 5 ∧ (5 : ℚ) ≤ 9)) :=
  ⟨rfl, rfl, rfl, rfl, by norm_num⟩

/-- C7 counterexample: the code base carries two divergent
score-to-level mappings — `RiskAssessmentService._determine_risk_level`
(used by `assess` and by the stats distribution) and
`RiskService._determine_risk_level` — which disagree at score `85`,
even in label polarity. -/
theorem divergent_risk_level_mappings :
    determineRiskLevel 85 = "HIGH" ∧
    riskServiceDetermineRiskLevel 85 = "low" ∧
    determineRiskLevel 85 ≠ riskServiceDetermineRiskLevel 85 := by
  have h1 : determineRiskLevel 85 = "HIGH" := by norm_num [determineRiskLevel]
  have h2 : riskServiceDetermineRiskLevel 85 = "low" := by
    norm_num [riskServiceDetermineRiskLevel]
  refine ⟨h1, h2, ?_⟩
  rw [h1, h2]
  decide

/-- Each score is classified as exactly one of the three labels. -/
theorem determineRiskLevel_cases (q : ℚ) :
    determineRiskLevel q = "HIGH" ∨ determineRiskLevel q = "MEDIUM" ∨
    determineRiskLevel q = "LOW" := by
  unfold determineRiskLevel
  split
  · exact Or.inl rfl
  · split
    · exact Or.inr (Or.inl rfl)
    · exact Or.inr (Or.inr rfl)

/-- Fold characterization of the level-distribution counters. -/
theorem distribution_foldl_spec (l : List RiskAssessmentRec) (d : LevelDistribution) :
    (l.foldl (fun d a => distIncr d (determineRiskLevel a.risk_score)) d).countHIGH =
      d.countHIGH + (l.filter fun a => determineRiskLevel a.risk_score = "HIGH").length ∧
    (l.foldl (fun d a => distIncr d (determineRiskLevel a.risk_score)) d).countMEDIUM =
      d.countMEDIUM +
        (l.filter fun a => determineRiskLevel a.risk_score = "MEDIUM").length ∧
    (l.foldl (fun d a => distIncr d (determineRiskLevel a.risk_score)) d).countLOW =
      d.countLOW + (l.filter fun a => determineRiskLevel a.risk_score = "LOW").length := by
  induction l generalizing d with
  | nil => simp
  | cons a rest ih =>
    rcases determineRiskLevel_cases a.risk_score with hl | hl | hl <;>
      simp only [List.foldl_cons, List.filter_cons, hl, distIncr] <;>
      have := ih (distIncr d (determineRiskLevel a.risk_score)) <;>
      simp_all [distIncr, hl] <;> omega

/-- C7 amended: the stats distribution counts every stored assessment
under the level that `_determine_risk_level` — the same function
`assess` uses to classify its response — derives from the stored score,
so assess-reported and stats-counted levels agree; a second divergent
mapping (`RiskService._determine_risk_level`) exists elsewhere in the
repository (see the counterexample) but is not used on this path. -/
theorem stats_distribution_matches_assess_classifier (assessments : List RiskAssessmentRec) :
    (getRiskLevelDistribution assessments).countHIGH =
      (assessments.filter fun a => determineRiskLevel a.risk_score = "HIGH").length ∧
    (getRiskLevelDistribution assessments).countMEDIUM =
      (assessments.filter fun a => determineRiskLevel a.risk_score = "MEDIUM").length ∧
    (getRiskLevelDistribution assessments).countLOW =
      (assessments.filter fun a => determineRiskLevel a.risk_score = "LOW").length := by
  have := distribution_foldl_spec assessments ⟨0, 0, 0⟩
  simpa [getRiskLevelDistribution] using this

/-- Membership is preserved by the sorted insert. -/
theorem mem_insertByDateDesc {x a : RiskAssessmentRec} {l : List RiskAssessmentRec} :
    x ∈ insertByDateDesc a l ↔ x = a ∨ x ∈ l := by
  induction l with
  | nil => simp [insertByDateDesc]
  | cons b rest ih =>
    unfold insertByDateDesc
    split <;> simp only [List.mem_cons, ih] <;> tauto

/-- Membership is preserved by the descending sort. -/
theorem mem_sortByDateDesc {x : RiskAssessmentRec} {rows : List RiskAssessmentRec} :
    x ∈ sortByDateDesc rows ↔ x ∈ rows := by
  induction rows with
  | nil => simp [sortByDateDesc]
  | cons r rest ih =>
    simp only [sortByDateDesc, List.foldr_cons] at ih ⊢
    rw [mem_insertByDateDesc, ih, List.mem_cons]

/-- C6: a record written by `assess_risk` and read back through
`get_customer_assessments` for the same customer reproduces the
response's score, level and contribution details exactly: the score is
stored verbatim and history re-derives the level with the same
`_determine_risk_level` from the same stored score. -/
theorem assess_history_round_trip
    (db : List RiskAssessmentRec) (next_id now : Int) (customer_id : String)
    (all_factors : List RiskFactor) (features : FeaturesMap)
    (db' : List RiskAssessmentRec) (resp : AssessmentResponse)
    (h : assessRisk db next_id now customer_id all_factors features = some (db', resp)) :
    ∃ r ∈ getCustomerAssessments db' customer_id Option.none Option.none,
      r.risk_score = resp.risk_score ∧ r.risk_level = resp.risk_level ∧
      r.details = resp.details := by
  unfold assessRisk at h
  cases hc : assessRiskCore all_factors features with
  | none => rw [hc] at h; exact absurd h (by simp)
  | some p =>
    obtain ⟨normalized_score, risk_details⟩ := p
    rw [hc] at h
    simp only [Option.some.injEq, Prod.mk.injEq] at h
    obtain ⟨hdb, hresp⟩ := h
    set written : RiskAssessmentRec :=
      { id := next_id, customer_id := customer_id, risk_score := normalized_score,
        assessment_date := now, details := risk_details } with hwritten
    refine ⟨{ id := written.id, customer_id := written.customer_id,
              risk_score := written.risk_score,
              risk_level := determineRiskLevel written.risk_score,
              assessment_date := written.assessment_date,
              details := written.details }, ?_, ?_, ?_, ?_⟩
    · unfold getCustomerAssessments
      simp only [List.mem_map]
      refine ⟨written, ?_, rfl⟩
      rw [mem_sortByDateDesc, List.mem_filter]
      constructor
      · rw [← hdb]
        simp
      · simp [dateInRange]
    · rw [← hresp]
    · rw [← hresp]
    · rw [← hresp]

/-- Witness for C6: an assessment of an empty factor set round-trips
through an empty store. -/
theorem assess_history_round_trip_witness :
    assessRisk [] 1 0 "cust-1" [] [] =
      some ([{ id := 1, customer_id := "cust-1", risk_score := 0,
               assessment_date := 0, details := [] }],
            { id := 1, customer_id := "cust-1", risk_score := 0, risk_level := "LOW",
              assessment_date := 0, details := [] }) ∧
    ∃ r ∈ getCustomerAssessments
        [{ id := 1, customer_id := "cust-1", risk_score := 0,
           assessment_date := 0, details := [] }] "cust-1" Option.none Option.none,
      r.risk_score = (0 : ℚ) ∧ r.risk_level = "LOW" ∧ r.details = [] := by
  have h : assessRisk [] 1 0 "cust-1" [] [] =
      some ([{ id := 1, customer_id := "cust-1", risk_score := 0,
               assessment_date := 0, details := [] }],
            { id := 1, customer_id := "cust-1", risk_score := 0, risk_level := "LOW",
              assessment_date := 0, details := [] }) := by
    simp [assessRisk, assessRiskCore, assessLoop, activeFactors, normalizeScore,
      determineRiskLevel] <;> norm_num
  refine ⟨h, ?_⟩
  have := assess_history_round_trip [] 1 0 "cust-1" [] [] _ _ h
  simpa using this

/-- The upsert leaves exactly one row for the targeted pair whenever
the store held at most one before. -/
theorem rowsFor_upsertRows (rows : List FeatureValueRec) (fid eid : Int) (v : Val)
    (hlen : (rowsFor rows fid eid).length ≤ 1) :
    rowsFor (upsertRows rows fid eid v) fid eid =
      [{ feature_id := fid, entity_id := eid, value := v }] := by
  induction rows with
  | nil => simp [upsertRows, rowsFor]
  | cons r rest ih =>
    by_cases hr : r.feature_id = fid ∧ r.entity_id = eid
    · have hrest : rowsFor rest fid eid = [] := by
        have hsplit : rowsFor (r :: rest) fid eid = r :: rowsFor rest fid eid := by
          simp [rowsFor, hr.1, hr.2]
        rw [hsplit] at hlen
        have h0 : (rowsFor rest fid eid).length = 0 := by
          simp only [List.length_cons] at hlen
          omega
        exact List.length_eq_zero.mp h0
      unfold upsertRows
      rw [if_pos hr]
      have heq : ({ r with value := v } : FeatureValueRec) =
          { feature_id := fid, entity_id := eid, value := v } := by
        cases r
        simp_all
      rw [heq]
      unfold rowsFor at hrest ⊢
      rw [List.filter_cons_of_pos (by simp), hrest]
    · unfold upsertRows
      rw [if_neg hr]
      have hlen' : (rowsFor rest fid eid).length ≤ 1 := by
        have : rowsFor (r :: rest) fid eid = rowsFor rest fid eid := by
          simp only [rowsFor, List.filter_cons]
          rw [if_neg (by simpa using hr)]
        rwa [this] at hlen
      have := ih hlen'
      simp only [rowsFor, List.filter_cons] at this ⊢
      rw [if_neg (by simpa using hr)]
      exact this

/-- C8: `set_feature_value` validates first — an invalid value fails
with the accumulated error list and writes nothing — and otherwise
upserts, so two successful calls with the same `(feature_id,
entity_id, value)` leave exactly one stored row for the pair, holding
that value. -/
theorem set_feature_value_upsert_idempotent
    (rows : List FeatureValueRec) (feature? : Option Feature)
    (fid eid : Int) (v : Val)
    (hinv : (rowsFor rows fid eid).length ≤ 1) :
    ((validateFeatureValue feature? v).is_valid = false →
      setFeatureValue rows feature? fid eid v =
        Except.error (validateFeatureValue feature? v).errors) ∧
    (∀ rows₁ rows₂,
      setFeatureValue rows feature? fid eid v = Except.ok rows₁ →
      setFeatureValue rows₁ feature? fid eid v = Except.ok rows₂ →
      rowsFor rows₂ fid eid =
        [{ feature_id := fid, entity_id := eid, value := v }]) := by
  constructor
  · intro hv
    simp [setFeatureValue, hv]
  · intro rows₁ rows₂ h1 h2
    unfold setFeatureValue at h1 h2
    by_cases hv : (validateFeatureValue feature? v).is_valid
    · rw [if_pos hv] at h1 h2
      simp only [Except.ok.injEq] at h1 h2
      subst h1
      subst h2
      have e1 := rowsFor_upsertRows rows fid eid v hinv
      exact rowsFor_upsertRows _ fid eid v (by rw [e1]; simp)
    · rw [if_neg hv] at h1
      exact absurd h1 (by simp)

/-- A boolean-typed feature with no constraints, for witnesses. -/
def boolFeature : Feature :=
  { id := 1, name := "flag", data_type := "boolean",
    constraints := ⟨Option.none, Option.none, Option.none, Option.none⟩,
    is_active := true }

/-- Witness for C8: storing `true` twice for feature 1, entity 2 in an
empty store leaves the single row `(1, 2, true)`. -/
theorem set_feature_value_upsert_idempotent_witness :
    (rowsFor [] 1 2).length ≤ 1 ∧
    setFeatureValue [] (some boolFeature) 1 2 (Val.bool true) =
      Except.ok [{ feature_id := 1, entity_id := 2, value := Val.bool true }] ∧
    setFeatureValue [{ feature_id := 1, entity_id := 2, value := Val.bool true }]
      (some boolFeature) 1 2 (Val.bool true) =
      Except.ok [{ feature_id := 1, entity_id := 2, value := Val.bool true }] ∧
    rowsFor [{ feature_id := 1, entity_id := 2, value := Val.bool true }] 1 2 =
      [{ feature_id := 1, entity_id := 2, value := Val.bool true }] := by
  refine ⟨by simp [rowsFor], rfl, rfl, ?_⟩
  exact (set_feature_value_upsert_idempotent [] (some boolFeature) 1 2 (Val.bool true)
    (by simp [rowsFor])).2 _ _ rfl rfl

/-- Whether a Python value is an actual boolean
(`isinstance(value, bool)`). -/
def Val.isBoolB : Val → Bool
  | .bool _ => true
  | _ => false

/-- C9: for a boolean-typed feature, `validate_feature_value` accepts
exactly actual booleans; any other value — `0`, `1`, strings — is
rejected with the validation error, never coerced. -/
theorem boolean_validation_requires_true_bool (feature : Feature) (value : Val)
    (h : feature.data_type = "boolean") :
    (validateFeatureValue (some feature) value).is_valid = value.isBoolB ∧
    (validateFeatureValue (some feature) value).errors =
      (if value.isBoolB then [] else ["Value must be a boolean"]) := by
  cases value <;>
    simp [validateFeatureValue, valueErrors, h, Val.isBoolB, pyNumVal]

/-- Witness for C9: the truthy integer `1` is rejected for a
boolean-typed feature. -/
theorem boolean_validation_requires_true_bool_witness :
    boolFeature.data_type = "boolean" ∧
    ((validateFeatureValue (some boolFeature) (Val.num 1)).is_valid =
       (Val.num 1).isBoolB ∧
     (validateFeatureValue (some boolFeature) (Val.num 1)).errors =
       (if (Val.num 1).isBoolB then [] else ["Value must be a boolean"])) :=
  ⟨rfl, boolean_validation_requires_true_bool boolFeature (Val.num 1) rfl⟩

/-- Unfolding equation for `dictGet` on a non-empty dict. -/
theorem dictGet_cons (k₁ : PyKey) (v : Val) (rest : FeaturesMap) (k : PyKey) :
    dictGet ((k₁, v) :: rest) k = if k₁ = k then some v else dictGet rest k := rfl

/-- Prepending a fresh key bound to `None` changes no lookup the loop
performs. -/
theorem featuresGet_cons_none (features : FeaturesMap) (k : PyKey) (fid : Int)
    (hk : dictGet features k = Option.none) :
    featuresGet ((k, Val.none) :: features) fid = featuresGet features fid := by
  unfold featuresGet
  rw [dictGet_cons]
  by_cases hkk : k = PyKey.i fid
  · rw [if_pos hkk, ← hkk, hk]
    rfl
  · rw [if_neg hkk]

/-- The scoring loop depends on the features mapping only through the
lookups it performs. -/
theorem assessLoop_congr (factors : List RiskFactor) (m₁ m₂ : FeaturesMap)
    (acc : AssessAcc) (hm : ∀ fid, featuresGet m₁ fid = featuresGet m₂ fid) :
    assessLoop factors m₁ acc = assessLoop factors m₂ acc := by
  induction factors generalizing acc with
  | nil => rfl
  | cons factor rest ih =>
    unfold assessLoop
    rw [hm factor.feature_id]
    by_cases hs : (featuresGet m₂ factor.feature_id).isNotNone
    · rw [if_pos hs, if_pos hs]
      cases calculateFactorScore factor (featuresGet m₂ factor.feature_id) with
      | none => rfl
      | some s => exact ih _
    · rw [if_neg hs, if_neg hs]
      exact ih _

/-- An integer key is never found in a mapping whose keys are all
strings. -/
theorem dictGet_int_of_all_str (features : FeaturesMap) (n : Int)
    (hstr : ∀ kv ∈ features, ∃ s, kv.1 = PyKey.s s) :
    dictGet features (PyKey.i n) = Option.none := by
  induction features with
  | nil => rfl
  | cons kv rest ih =>
    obtain ⟨s, hs⟩ := hstr kv (List.mem_cons_self _ _)
    unfold dictGet
    rw [if_neg (by rw [hs]; simp)]
    exact ih fun kv' h => hstr kv' (List.mem_cons_of_mem _ h)

/-- A loop over factors none of which has a submitted value leaves the
accumulators untouched. -/
theorem assessLoop_all_skipped (factors : List RiskFactor) (features : FeaturesMap)
    (acc : AssessAcc) (hs : ∀ f ∈ factors, hasSubmittedValue features f = false) :
    assessLoop factors features acc = some acc := by
  induction factors generalizing acc with
  | nil => rfl
  | cons factor rest ih =>
    unfold assessLoop
    have := hs factor (List.mem_cons_self _ _)
    unfold hasSubmittedValue at this
    rw [if_neg (by simp [this])]
    exact ih _ fun f hf => hs f (List.mem_cons_of_mem _ hf)

/-- C10: a factor contributes exactly when the features dict holds the
factor's integer `feature_id` as a key bound to a non-`None` value: a
key bound to `None` behaves like an absent key, a mapping with only
string keys (the shape the request schema declares) contributes
nothing, and the loop's gate is equivalent to presence of the integer
key with a non-`None` value. -/
theorem contribution_iff_integer_key_not_none
    (factors : List RiskFactor) (features : FeaturesMap) (k : PyKey)
    (hk : dictGet features k = Option.none) :
    assessRiskCore factors ((k, Val.none) :: features) =
      assessRiskCore factors features ∧
    ((∀ kv ∈ features, ∃ s, kv.1 = PyKey.s s) →
      assessRiskCore factors features = some (0, [])) ∧
    (∀ f : RiskFactor, hasSubmittedValue features f = true ↔
      ∃ v, dictGet features (PyKey.i f.feature_id) = some v ∧ v ≠ Val.none) := by
  refine ⟨?_, ?_, ?_⟩
  · unfold assessRiskCore
    rw [assessLoop_congr (activeFactors factors) _ features _
      (fun fid => featuresGet_cons_none features k fid hk)]
  · intro hstr
    have hskip : ∀ f ∈ activeFactors factors, hasSubmittedValue features f = false := by
      intro f _
      unfold hasSubmittedValue featuresGet
      rw [dictGet_int_of_all_str features f.feature_id hstr]
      rfl
    unfold assessRiskCore
    rw [assessLoop_all_skipped _ _ _ hskip]
    simp [normalizeScore]
  · intro f
    unfold hasSubmittedValue featuresGet
    cases hg : dictGet features (PyKey.i f.feature_id) with
    | none => simp [Val.isNotNone]
    | some v =>
      cases v <;> simp [Val.isNotNone]

/-- Witness for C10: one active factor on feature 1, a mapping holding
only the string key `"1"`, and the fresh integer key `1`. -/
theorem contribution_iff_integer_key_not_none_witness :
    dictGet [(PyKey.s "1", Val.num 15000)] (PyKey.i 1) = Option.none ∧
    (assessRiskCore [scenarioALt] ((PyKey.i 1, Val.none) :: [(PyKey.s "1", Val.num 15000)]) =
       assessRiskCore [scenarioALt] [(PyKey.s "1", Val.num 15000)] ∧
     ((∀ kv ∈ [(PyKey.s "1", Val.num 15000)], ∃ s, kv.1 = PyKey.s s) →
       assessRiskCore [scenarioALt] [(PyKey.s "1", Val.num 15000)] = some (0, [])) ∧
     (∀ f : RiskFactor, hasSubmittedValue [(PyKey.s "1", Val.num 15000)] f = true ↔
       ∃ v, dictGet [(PyKey.s "1", Val.num 15000)] (PyKey.i f.feature_id) = some v ∧
         v ≠ Val.none)) := by
  have hk : dictGet [(PyKey.s "1", Val.num 15000)] (PyKey.i 1) = Option.none := rfl
  exact ⟨hk, contribution_iff_integer_key_not_none [scenarioALt]
    [(PyKey.s "1", Val.num 15000)] (PyKey.i 1) hk⟩
